import Mathlib

/-!
Shallow embedding of the text-analysis core of `src/app.py`: four error
detectors (`check_grammar`, `check_punctuation`, `check_capitalization`,
`check_sentence_formation`), the score normalizer `calculate_scores` and the
feedback generator `generate_feedback`.  Text is modelled as `List Char`
(ASCII prose, matching the analysed inputs); Python float arithmetic in the
scorer is modelled exactly over `ℚ`.
-/

namespace App

/-- Python regex word character (`\w` restricted to ASCII): letter, digit or
underscore. -/
def isWordChar (c : Char) : Bool :=
  (Char.ofNat 97 ≤ c && c ≤ Char.ofNat 122) ||
  (Char.ofNat 65 ≤ c && c ≤ Char.ofNat 90) ||
  (Char.ofNat 48 ≤ c && c ≤ Char.ofNat 57) || c == Char.ofNat 95

/-- Python `str.isupper` on a single ASCII character. -/
def isUpperPy (c : Char) : Bool :=
  Char.ofNat 65 ≤ c && c ≤ Char.ofNat 90

/-- ASCII lowercase letter, the `[a-z]` character class. -/
def isLowerPy (c : Char) : Bool :=
  Char.ofNat 97 ≤ c && c ≤ Char.ofNat 122

/-- Python `str.strip` / `str.split` whitespace (ASCII portion): space, tab,
newline, carriage return, vertical tab and form feed. -/
def isPySpace (c : Char) : Bool :=
  c == ' ' || c == '\t' || c == '\n' || c == '\x0d' ||
  c == '\x0b' || c == '\x0c'

/-- Python `str.lower` on a single ASCII character. -/
def toLowerPy (c : Char) : Char :=
  if isUpperPy c then Char.ofNat (c.toNat + 32) else c

/-- Sentence terminator characters, the regex class `[.!?]` used by
`re.split` in `check_punctuation`, `check_capitalization` and
`check_sentence_formation`. -/
def isTerminator (c : Char) : Bool :=
  c == '.' || c == '!' || c == '?'

/-- Model of `re.split` on a single-character class: split the text at every
character satisfying `p`, keeping empty pieces (as Python does). -/
def splitOnPred (p : Char → Bool) : List Char → List (List Char)
  | [] => [[]]
  | c :: rest =>
    if p c then [] :: splitOnPred p rest
    else (splitOnPred p rest).modifyHead (fun s => c :: s)

/-- Model of Python `str.strip`: drop whitespace from both ends. -/
def pyStrip (s : List Char) : List Char :=
  ((s.dropWhile isPySpace).reverse.dropWhile isPySpace).reverse

/-- Model of Python `str.split()` with no argument: split on runs of
whitespace and discard empty pieces. -/
def pySplit (s : List Char) : List (List Char) :=
  (splitOnPred isPySpace s).filter (fun w => !w.isEmpty)

/-- Model of Python `str.count(pat)` for a two-character pattern `a,b`:
number of non-overlapping occurrences, scanning left to right. -/
def count2 (a b : Char) : List Char → Nat
  | [] => 0
  | [_] => 0
  | c :: d :: rest =>
    if c == a && d == b then 1 + count2 a b rest
    else count2 a b (d :: rest)

/-! ### check_grammar (src/app.py lines 7-21) -/

/-- Word-boundary test on the left of a scan position: `prev` is the
character just before the position (`none` at the start of the text); `\b`
holds before a word character exactly when `prev` is absent or not a word
character. -/
def boundaryBefore : Option Char → Bool
  | none => true
  | some p => !isWordChar p

/-- Model of the first grammar pattern `\b(i)\b` with `re.IGNORECASE`:
non-overlapping matches of a standalone `i` or `I` token, counted by a
left-to-right scan carrying the previous character. -/
def standaloneICount : Option Char → List Char → Nat
  | _, [] => 0
  | prev, c :: rest =>
    let boundaryAfter : Bool :=
      match rest with
      | [] => true
      | d :: _ => !isWordChar d
    (if (c == 'i' || c == 'I') && boundaryBefore prev && boundaryAfter then 1 else 0) +
      standaloneICount (some c) rest

/-- Case-insensitive test that `s` starts with the word `w` (given in
lowercase) followed by a word boundary, modelling `\b w \b` anchored at the
current position. -/
def startsWordCI : List Char → List Char → Bool
  | [], [] => true
  | [], c :: _ => !isWordChar c
  | _ :: _, [] => false
  | a :: ws, c :: cs => toLowerPy c == a && startsWordCI ws cs

/-- Number of scan positions at which some word of the group `ws` matches
with word boundaries on both sides, modelling case-insensitive occurrences of
`\b(w1|w2|...)\b` in a line. -/
def countWordOccs (ws : List (List Char)) : Option Char → List Char → Nat
  | _, [] => 0
  | prev, c :: rest =>
    (if boundaryBefore prev && ws.any (fun w => startsWordCI w (c :: rest)) then 1 else 0) +
      countWordOccs ws (some c) rest

/-- Model of `re.findall(r'\bG\b.*\bG\b', text, re.IGNORECASE)` for a word
group `G`: since `.` does not cross newlines and `.*` is greedy, each
newline-free line contributes exactly one match when it contains at least two
group-word occurrences, and none otherwise. -/
def homophonePairCount (ws : List (List Char)) (text : List Char) : Nat :=
  ((splitOnPred (fun c => c == '\n') text).filter
    (fun line => decide (2 ≤ countWordOccs ws none line))).length

/-- Word group of the second grammar pattern: their / there / they're. -/
def groupTheir : List (List Char) :=
  [['t', 'h', 'e', 'i', 'r'], ['t', 'h', 'e', 'r', 'e'],
   ['t', 'h', 'e', 'y', '\'', 'r', 'e']]

/-- Word group of the third grammar pattern: your / you're. -/
def groupYour : List (List Char) :=
  [['y', 'o', 'u', 'r'], ['y', 'o', 'u', '\'', 'r', 'e']]

/-- Word group of the fourth grammar pattern: its / it's. -/
def groupIts : List (List Char) :=
  [['i', 't', 's'], ['i', 't', '\'', 's']]

/-- Model of `check_grammar`: the summed match counts of the four
case-insensitive patterns, paired with the literal empty list the Python
function returns as its second component. -/
def check_grammar (text : List Char) : Nat × List String :=
  (standaloneICount none text +
     homophonePairCount groupTheir text +
     homophonePairCount groupYour text +
     homophonePairCount groupIts text, [])

/-! ### check_punctuation (src/app.py lines 23-37) -/

/-- Model of `re.search(r'[.!?]$', s)`: Python `$` matches at the end of the
string or just before a trailing newline. -/
def endsWithTerminator (s : List Char) : Bool :=
  match s.reverse with
  | [] => false
  | [c] => isTerminator c
  | c :: d :: _ => isTerminator c || (c == '\n' && isTerminator d)

/-- Sentence units: `re.split(r'[.!?]', text)`, each piece stripped, empty
pieces discarded — the list comprehension shared by `check_punctuation` and
`check_capitalization`. -/
def sentenceUnits (text : List Char) : List (List Char) :=
  ((splitOnPred isTerminator text).map pyStrip).filter (fun s => !s.isEmpty)

/-- First pass of `check_punctuation`: count sentence units that are truthy
and do not match `[.!?]$`. -/
def missingTerminatorCount (text : List Char) : Nat :=
  ((sentenceUnits text).filter
    (fun s => !s.isEmpty && !endsWithTerminator s)).length

/-- Model of `check_punctuation`: missing-terminator count plus the literal
substring counts `text.count(",,") + text.count(" ,") + text.count(", ")`. -/
def check_punctuation (text : List Char) : Nat :=
  missingTerminatorCount text +
    (count2 ',' ',' text + count2 ' ' ',' text + count2 ',' ' ' text)

/-! ### check_capitalization (src/app.py lines 39-58) -/

/-- Word-boundary test just after a match, looking at the remaining text:
`\b` holds after a word character exactly when the text ends or the next
character is not a word character. -/
def boundaryAfterList : List Char → Bool
  | [] => true
  | d :: _ => !isWordChar d

/-- Model of `re.findall(r'\b([A-Z][a-z]+)\b', text)`: a left-to-right scan
carrying the previous character; at a word boundary, an uppercase letter
followed by a nonempty maximal run of lowercase letters ending at a word
boundary is a match.  No later match can start inside an emitted match (all
its characters are word characters), so advancing one character at a time
agrees with `findall`'s continuation after each match. -/
def properNounsAux : Option Char → List Char → List (List Char)
  | _, [] => []
  | prev, c :: rest =>
    let run := rest.takeWhile isLowerPy
    if boundaryBefore prev && isUpperPy c && !run.isEmpty &&
        boundaryAfterList (rest.dropWhile isLowerPy) then
      (c :: run) :: properNounsAux (some c) rest
    else
      properNounsAux (some c) rest

/-- Matches of the capitalized-word pattern over the whole text. -/
def properNouns (text : List Char) : List (List Char) :=
  properNounsAux none text

/-- The closed list `common_mistakes` of `check_capitalization`. -/
def common_mistakes : List (List Char) :=
  [['t', 'h', 'e'], ['a', 'n', 'd'], ['o', 'f'], ['i', 'n'], ['t', 'o'],
   ['a'], ['a', 'n']]

/-- Second pass of `check_capitalization` with the mistake list as a
parameter: count capitalized-word matches whose lowercase form is in the
list. -/
def commonWordFlags (mistakes : List (List Char)) (text : List Char) : Nat :=
  ((properNouns text).filter
    (fun w => mistakes.contains (w.map toLowerPy))).length

/-- Model of `check_capitalization`: sentence units whose first character is
not uppercase, plus capitalized common words from `common_mistakes`. -/
def check_capitalization (text : List Char) : Nat :=
  ((sentenceUnits text).filter
    (fun s => !s.isEmpty && !(match s with | [] => false | c :: _ => isUpperPy c))).length +
    commonWordFlags common_mistakes text

/-! ### check_sentence_formation (src/app.py lines 60-72), issue count only.
The readability scalar is computed by the external `textstat` library and is
not part of this repository; only the integer issue count flows into the
scorer, and it is modelled here. -/

/-- Model of the issue count of `check_sentence_formation`: over the raw
(unstripped, unfiltered) `re.split(r'[.!?]', text)` pieces, count pieces
whose whitespace word count `w` satisfies `0 < w < 3` (fragments) plus
pieces with `w > 25` (run-ons). -/
def check_sentence_formation_count (text : List Char) : Nat :=
  let sentences := splitOnPred isTerminator text
  (sentences.filter
      (fun s => decide ((pySplit s).length < 3) && decide ((pySplit s).length > 0))).length +
    (sentences.filter (fun s => decide ((pySplit s).length > 25))).length

/-! ### calculate_scores (src/app.py lines 74-92) -/

/-- Result dictionary of `calculate_scores`, with its five keys. -/
structure Scores where
  Grammar : ℚ
  Punctuation : ℚ
  Capitalization : ℚ
  SentenceFormation : ℚ
  Total : ℚ
  deriving Repr, DecidableEq

/-- Model of `calculate_scores`: word count is `len(text.split())`, each
category score is `max(0, C - e*C / max(1, word_count/10))` with ceiling 40
for grammar and 20 for the other three, and the total is their sum.  Python
float arithmetic is modelled exactly over `ℚ`. -/
def calculate_scores (text : List Char)
    (grammar_errors punctuation_errors capitalization_errors formation_errors : Nat) :
    Scores :=
  let word_count : ℚ := ((pySplit text).length : ℚ)
  let grammar_score := max 0 (40 - (grammar_errors * 40 / max 1 (word_count / 10)))
  let punctuation_score := max 0 (20 - (punctuation_errors * 20 / max 1 (word_count / 10)))
  let capitalization_score := max 0 (20 - (capitalization_errors * 20 / max 1 (word_count / 10)))
  let formation_score := max 0 (20 - (formation_errors * 20 / max 1 (word_count / 10)))
  { Grammar := grammar_score
    Punctuation := punctuation_score
    Capitalization := capitalization_score
    SentenceFormation := formation_score
    Total := grammar_score + punctuation_score + capitalization_score + formation_score }

/-! ### generate_feedback (src/app.py lines 94-126) -/

/-- Model of `generate_feedback`: one sentence per category chosen by the
`if / elif / else` threshold chain of the source, the raw error count
interpolated into the lowest-tier sentence, the four sentences joined with a
single space. -/
def generate_feedback (scores : Scores)
    (grammar_errors punctuation_errors capitalization_errors formation_errors : Nat) :
    String :=
  let fb1 :=
    if scores.Grammar ≥ 35 then "Excellent grammar usage."
    else if scores.Grammar ≥ 30 then "Good grammar with minor errors."
    else "Grammar needs improvement (" ++ toString grammar_errors ++ " errors detected)."
  let fb2 :=
    if scores.Punctuation ≥ 18 then "Punctuation is used correctly."
    else if scores.Punctuation ≥ 15 then "Generally good punctuation with some mistakes."
    else "Punctuation needs work (" ++ toString punctuation_errors ++ " errors detected)."
  let fb3 :=
    if scores.Capitalization ≥ 18 then "Capitalization is properly applied."
    else if scores.Capitalization ≥ 15 then "Most capitalization is correct."
    else "Capitalization needs attention (" ++ toString capitalization_errors ++
      " errors detected)."
  let fb4 :=
    if scores.SentenceFormation ≥ 18 then "Sentences are well-structured and readable."
    else if scores.SentenceFormation ≥ 15 then "Sentence formation is generally good."
    else "Sentence formation could be improved (" ++ toString formation_errors ++
      " issues detected)."
  String.intercalate (" ") [fb1, fb2, fb3, fb4]

/-- Three-tier selection written the way the specification states it: score
at or above the high cutoff gives the top sentence, score in the half-open
interval from the mid cutoff up to the high cutoff gives the middle
sentence, and score strictly below the mid cutoff gives the bottom
sentence. -/
def tierSentence (hi mid : ℚ) (s : ℚ) (topS midS lowS : String) : String :=
  if hi ≤ s then topS
  else if mid ≤ s ∧ s < hi then midS
  else lowS

/-- Modelled from the spec: the feedback generator contract — three tiers
per category with grammar cutoffs 35 and 30 and cutoffs 18 and 15 for the
other three categories, the raw error count interpolated only into the
lowest tier, and the four category sentences joined space-separated in
category order. -/
def feedbackSpec (scores : Scores)
    (grammar_errors punctuation_errors capitalization_errors formation_errors : Nat) :
    String :=
  let fb1 :=
    tierSentence 35 30 scores.Grammar ("Excellent grammar usage.")
      ("Good grammar with minor errors.")
      ("Grammar needs improvement (" ++ toString grammar_errors ++ " errors detected).")
  let fb2 :=
    tierSentence 18 15 scores.Punctuation ("Punctuation is used correctly.")
      ("Generally good punctuation with some mistakes.")
      ("Punctuation needs work (" ++ toString punctuation_errors ++ " errors detected).")
  let fb3 :=
    tierSentence 18 15 scores.Capitalization ("Capitalization is properly applied.")
      ("Most capitalization is correct.")
      ("Capitalization needs attention (" ++ toString capitalization_errors ++
        " errors detected).")
  let fb4 :=
    tierSentence 18 15 scores.SentenceFormation
      ("Sentences are well-structured and readable.")
      ("Sentence formation is generally good.")
      ("Sentence formation could be improved (" ++ toString formation_errors ++
        " issues detected).")
  String.intercalate (" ") [fb1, fb2, fb3, fb4]

/-- Scenario B text of the specification. -/
def txtB : List Char :=
  ("I went to the store. She bought milk. He came home.").data

/-! ## Helper lemmas -/

theorem penalty_nonneg (e : Nat) (C w : ℚ) (hC : 0 ≤ C) :
    0 ≤ (e : ℚ) * C / max 1 (w / 10) := by
  apply div_nonneg (mul_nonneg (Nat.cast_nonneg e) hC)
  exact le_trans zero_le_one (le_max_left _ _)

theorem subscore_nonneg (e : Nat) (C w : ℚ) :
    0 ≤ max 0 (C - (e : ℚ) * C / max 1 (w / 10)) :=
  le_max_left 0 _

theorem subscore_le_ceiling (e : Nat) (C w : ℚ) (hC : 0 ≤ C) :
    max 0 (C - (e : ℚ) * C / max 1 (w / 10)) ≤ C := by
  have h := penalty_nonneg e C w hC
  apply max_le hC
  linarith

theorem subscore_antitone (e e' : Nat) (C w : ℚ) (hC : 0 ≤ C) (h : e ≤ e') :
    max 0 (C - (e' : ℚ) * C / max 1 (w / 10)) ≤
      max 0 (C - (e : ℚ) * C / max 1 (w / 10)) := by
  have hD : (0 : ℚ) < max 1 (w / 10) := lt_of_lt_of_le zero_lt_one (le_max_left _ _)
  have hmul : (e : ℚ) * C ≤ (e' : ℚ) * C :=
    mul_le_mul_of_nonneg_right (by exact_mod_cast h) hC
  have hdiv : (e : ℚ) * C / max 1 (w / 10) ≤ (e' : ℚ) * C / max 1 (w / 10) :=
    (div_le_div_iff_of_pos_right hD).mpr hmul
  exact max_le_max le_rfl (by linarith)

theorem splitOnPred_ne_nil (p : Char → Bool) (s : List Char) :
    splitOnPred p s ≠ [] := by
  induction s with
  | nil => simp [splitOnPred]
  | cons c rest ih =>
    rw [splitOnPred]
    by_cases hp : p c = true
    · simp [hp]
    · rcases h : splitOnPred p rest with _ | ⟨s0, ss⟩
      · exact absurd h ih
      · simp [hp, h]

theorem splitOnPred_mem (p : Char → Bool) :
    ∀ s : List Char, ∀ piece ∈ splitOnPred p s, ∀ c ∈ piece,
      c ∈ s ∧ p c = false := by
  intro s
  induction s with
  | nil =>
    intro piece hp c hc
    simp only [splitOnPred, List.mem_singleton] at hp
    subst hp
    simp at hc
  | cons a rest ih =>
    intro piece hp c hc
    rw [splitOnPred] at hp
    by_cases hpa : p a = true
    · rw [if_pos hpa] at hp
      rcases List.mem_cons.mp hp with rfl | h2
      · simp at hc
      · obtain ⟨h1, h2'⟩ := ih piece h2 c hc
        exact ⟨List.mem_cons_of_mem a h1, h2'⟩
    · rw [if_neg hpa] at hp
      rcases h : splitOnPred p rest with _ | ⟨s0, ss⟩
      · exact absurd h (splitOnPred_ne_nil p rest)
      · rw [h, List.modifyHead_cons] at hp
        rcases List.mem_cons.mp hp with rfl | h2
        · rcases List.mem_cons.mp hc with rfl | hc2
          · exact ⟨List.mem_cons_self c rest, by simpa using hpa⟩
          · obtain ⟨h1, h2'⟩ := ih s0 (h ▸ List.mem_cons_self s0 ss) c hc2
            exact ⟨List.mem_cons_of_mem a h1, h2'⟩
        · obtain ⟨h1, h2'⟩ := ih piece (h ▸ List.mem_cons_of_mem s0 h2) c hc
          exact ⟨List.mem_cons_of_mem a h1, h2'⟩

theorem splitOnPred_eq_single (p : Char → Bool) (s : List Char)
    (h : ∀ c ∈ s, p c = false) : splitOnPred p s = [s] := by
  induction s with
  | nil => rfl
  | cons a rest ih =>
    rw [splitOnPred, if_neg (by simp [h a (List.mem_cons_self a rest)]),
      ih (fun c hc => h c (List.mem_cons_of_mem a hc)), List.modifyHead_cons]

theorem pyStrip_subset (s : List Char) : ∀ c ∈ pyStrip s, c ∈ s := by
  intro c hc
  rw [pyStrip, List.mem_reverse] at hc
  have h1 := (List.dropWhile_sublist isPySpace).subset hc
  rw [List.mem_reverse] at h1
  exact (List.dropWhile_sublist isPySpace).subset h1

theorem endsWithTerminator_eq_false (s : List Char)
    (h : ∀ c ∈ s, isTerminator c = false) : endsWithTerminator s = false := by
  rw [endsWithTerminator]
  cases hr : s.reverse with
  | nil => rfl
  | cons c rest =>
    have hc : c ∈ s := by
      rw [← List.mem_reverse, hr]
      exact List.mem_cons_self c rest
    cases rest with
    | nil => simpa using h c hc
    | cons d rest2 =>
      have hd : d ∈ s := by
        rw [← List.mem_reverse, hr]
        exact List.mem_cons_of_mem c (List.mem_cons_self d rest2)
      simp [h c hc, h d hd]

theorem sentenceUnits_no_terminator (text : List Char) :
    ∀ s ∈ sentenceUnits text, ∀ c ∈ s, isTerminator c = false := by
  intro s hs c hc
  rw [sentenceUnits] at hs
  obtain ⟨hsm, -⟩ := List.mem_filter.mp hs
  obtain ⟨piece, hpiece, rfl⟩ := List.mem_map.mp hsm
  exact (splitOnPred_mem isTerminator text piece hpiece c
    (pyStrip_subset piece c hc)).2

/-! ## Claims about the score normalizer -/

/-- C1: for every input text and every quadruple of non-negative error
counts, each sub-score of `calculate_scores` lies within its ceiling bounds
(grammar in [0,40], punctuation, capitalization and formation in [0,20]) and
the total lies in [0,100]. -/
theorem calculate_scores_bounds (text : List Char) (g p c f : Nat) :
    0 ≤ (calculate_scores text g p c f).Grammar ∧
      (calculate_scores text g p c f).Grammar ≤ 40 ∧
    0 ≤ (calculate_scores text g p c f).Punctuation ∧
      (calculate_scores text g p c f).Punctuation ≤ 20 ∧
    0 ≤ (calculate_scores text g p c f).Capitalization ∧
      (calculate_scores text g p c f).Capitalization ≤ 20 ∧
    0 ≤ (calculate_scores text g p c f).SentenceFormation ∧
      (calculate_scores text g p c f).SentenceFormation ≤ 20 ∧
    0 ≤ (calculate_scores text g p c f).Total ∧
      (calculate_scores text g p c f).Total ≤ 100 := by
  have hg1 := subscore_nonneg g 40 ((pySplit text).length : ℚ)
  have hg2 := subscore_le_ceiling g 40 ((pySplit text).length : ℚ) (by norm_num)
  have hp1 := subscore_nonneg p 20 ((pySplit text).length : ℚ)
  have hp2 := subscore_le_ceiling p 20 ((pySplit text).length : ℚ) (by norm_num)
  have hc1 := subscore_nonneg c 20 ((pySplit text).length : ℚ)
  have hc2 := subscore_le_ceiling c 20 ((pySplit text).length : ℚ) (by norm_num)
  have hf1 := subscore_nonneg f 20 ((pySplit text).length : ℚ)
  have hf2 := subscore_le_ceiling f 20 ((pySplit text).length : ℚ) (by norm_num)
  simp only [calculate_scores]
  refine ⟨hg1, hg2, hp1, hp2, hc1, hc2, hf1, hf2, by linarith, by linarith⟩

/-- C2: for every input text and every quadruple of non-negative error
counts, the total of `calculate_scores` equals exactly the sum of the four
sub-scores. -/
theorem calculate_scores_total_eq_sum (text : List Char) (g p c f : Nat) :
    (calculate_scores text g p c f).Total =
      (calculate_scores text g p c f).Grammar +
        (calculate_scores text g p c f).Punctuation +
        (calculate_scores text g p c f).Capitalization +
        (calculate_scores text g p c f).SentenceFormation := rfl

/-- C5: monotonicity of the score normalizer — for a fixed text, if one
category's raw error count increases from `e` to `e'` while the other three
stay the same, that category's sub-score does not increase.  The four
conjuncts cover the four categories. -/
theorem calculate_scores_monotone (text : List Char) (e e' g p c f : Nat)
    (h : e ≤ e') :
    (calculate_scores text e' p c f).Grammar ≤
        (calculate_scores text e p c f).Grammar ∧
    (calculate_scores text g e' c f).Punctuation ≤
        (calculate_scores text g e c f).Punctuation ∧
    (calculate_scores text g p e' f).Capitalization ≤
        (calculate_scores text g p e f).Capitalization ∧
    (calculate_scores text g p c e').SentenceFormation ≤
        (calculate_scores text g p c e).SentenceFormation := by
  simp only [calculate_scores]
  exact ⟨subscore_antitone e e' 40 _ (by norm_num) h,
    subscore_antitone e e' 20 _ (by norm_num) h,
    subscore_antitone e e' 20 _ (by norm_num) h,
    subscore_antitone e e' 20 _ (by norm_num) h⟩

/-- Witness for C5: instantiated on the empty text with the grammar count
rising from 0 to 1. -/
theorem calculate_scores_monotone_witness :
    (0 ≤ 1) ∧
    ((calculate_scores [] 1 0 0 0).Grammar ≤ (calculate_scores [] 0 0 0 0).Grammar ∧
     (calculate_scores [] 0 1 0 0).Punctuation ≤ (calculate_scores [] 0 0 0 0).Punctuation ∧
     (calculate_scores [] 0 0 1 0).Capitalization ≤ (calculate_scores [] 0 0 0 0).Capitalization ∧
     (calculate_scores [] 0 0 0 1).SentenceFormation ≤
       (calculate_scores [] 0 0 0 0).SentenceFormation) :=
  ⟨by decide, calculate_scores_monotone [] 0 1 0 0 0 0 (by decide)⟩

/-- C8: for any text whose whitespace-token word count is exactly 1 and a
grammar error count of 1 (the other counts arbitrary), the grammar sub-score
is exactly 0, since the divisor floors at 1. -/
theorem single_word_one_grammar_error_score_zero (text : List Char) (p c f : Nat)
    (h : (pySplit text).length = 1) :
    (calculate_scores text 1 p c f).Grammar = 0 := by
  simp only [calculate_scores, h]
  have hmax : max (1 : ℚ) ((1 : ℚ) / 10) = 1 := max_eq_left (by norm_num)
  norm_num [hmax]

/-- Witness for C8: the one-character text has word count 1 and its grammar
sub-score with one grammar error is 0. -/
theorem single_word_one_grammar_error_score_zero_witness :
    (pySplit [Char.ofNat 120]).length = 1 ∧
      (calculate_scores [Char.ofNat 120] 1 0 0 0).Grammar = 0 :=
  ⟨by decide, single_word_one_grammar_error_score_zero [Char.ofNat 120] 0 0 0 (by decide)⟩

/-! ## Claims about the detectors -/

/-- C3: the missing-terminator pass of `check_punctuation` flags every
sentence unit: its count equals the number of units obtained by splitting the
text at the terminator characters and discarding empty or whitespace-only
units, because splitting consumes the delimiter so the terminator check can
never succeed. -/
theorem missingTerminatorCount_eq_units_length (text : List Char) :
    missingTerminatorCount text = (sentenceUnits text).length := by
  rw [missingTerminatorCount]
  have hfilter :
      (sentenceUnits text).filter (fun s => !s.isEmpty && !endsWithTerminator s) =
        sentenceUnits text := by
    apply List.filter_eq_self.mpr
    intro s hs
    have hterm : endsWithTerminator s = false :=
      endsWithTerminator_eq_false s (sentenceUnits_no_terminator text s hs)
    have hne : s.isEmpty = false := by
      rw [sentenceUnits] at hs
      obtain ⟨-, hkeep⟩ := List.mem_filter.mp hs
      simpa using hkeep
    simp [hne, hterm]
  rw [hfilter]

/-- C4 counterexample: on the Scenario B text the punctuation detector
returns 3 (one per sentence unit), not 0, so the claimed conjunction of
detector outputs is false. -/
theorem scenarioB_punctuation_ne_zero :
    check_punctuation txtB = 3 ∧
      ¬(check_punctuation txtB = 0 ∧ check_capitalization txtB = 0 ∧
        1 ≤ (check_grammar txtB).1) := by
  constructor
  · decide
  · intro hcontra
    have h3 : check_punctuation txtB = 3 := by decide
    omega

/-- C4 amended: on the Scenario B text the capitalization detector returns
0 and the grammar detector flags the standalone capital I (count at least 1,
in fact exactly 1), but the punctuation detector returns 3 — one
missing-terminator error per sentence unit — rather than 0. -/
theorem scenarioB_detector_counts :
    check_punctuation txtB = 3 ∧ check_capitalization txtB = 0 ∧
      1 ≤ (check_grammar txtB).1 := by
  decide

/-! ## Whitespace-only texts -/

theorem space_cases (c : Char) (h : isPySpace c = true) :
    c = ' ' ∨ c = '\t' ∨ c = '\n' ∨ c = '\x0d' ∨ c = '\x0b' ∨ c = '\x0c' := by
  simp [isPySpace] at h
  tauto

theorem space_not_i (c : Char) (h : isPySpace c = true) :
    (c == 'i' || c == 'I') = false := by
  rcases space_cases c h with rfl | rfl | rfl | rfl | rfl | rfl <;> decide

theorem space_not_terminator (c : Char) (h : isPySpace c = true) :
    isTerminator c = false := by
  rcases space_cases c h with rfl | rfl | rfl | rfl | rfl | rfl <;> decide

theorem space_not_comma (c : Char) (h : isPySpace c = true) :
    (c == ',') = false := by
  rcases space_cases c h with rfl | rfl | rfl | rfl | rfl | rfl <;> decide

theorem space_not_upper (c : Char) (h : isPySpace c = true) :
    isUpperPy c = false := by
  rcases space_cases c h with rfl | rfl | rfl | rfl | rfl | rfl <;> decide

theorem toLowerPy_space (c : Char) (h : isPySpace c = true) : toLowerPy c = c := by
  rcases space_cases c h with rfl | rfl | rfl | rfl | rfl | rfl <;> decide

theorem standaloneICount_space (text : List Char)
    (h : ∀ c ∈ text, isPySpace c = true) :
    ∀ prev, standaloneICount prev text = 0 := by
  induction text with
  | nil => intro prev; rfl
  | cons c rest ih =>
    intro prev
    simp only [standaloneICount]
    rw [space_not_i c (h c (List.mem_cons_self c rest))]
    simp [ih (fun x hx => h x (List.mem_cons_of_mem c hx)) (some c)]

theorem countWordOccs_space (ws : List (List Char))
    (hws : ∀ w ∈ ws, ∃ a t, w = a :: t ∧ isPySpace a = false)
    (line : List Char) (h : ∀ c ∈ line, isPySpace c = true) :
    ∀ prev, countWordOccs ws prev line = 0 := by
  induction line with
  | nil => intro prev; rfl
  | cons c rest ih =>
    intro prev
    rw [countWordOccs]
    have hany : ws.any (fun w => startsWordCI w (c :: rest)) = false := by
      rw [List.any_eq_false]
      intro w hw hcontra
      obtain ⟨a, t, rfl, ha⟩ := hws w hw
      rw [startsWordCI, Bool.and_eq_true, beq_iff_eq] at hcontra
      have hc := h c (List.mem_cons_self c rest)
      rw [toLowerPy_space c hc] at hcontra
      rw [hcontra.1] at hc
      rw [hc] at ha
      exact Bool.true_eq_false.mp ha
    rw [hany]
    simp [ih (fun x hx => h x (List.mem_cons_of_mem c hx)) (some c)]

theorem homophonePairCount_space (ws : List (List Char))
    (hws : ∀ w ∈ ws, ∃ a t, w = a :: t ∧ isPySpace a = false)
    (text : List Char) (h : ∀ c ∈ text, isPySpace c = true) :
    homophonePairCount ws text = 0 := by
  rw [homophonePairCount, List.length_eq_zero, List.filter_eq_nil_iff]
  intro line hline
  have hsub : ∀ c ∈ line, isPySpace c = true := fun c hc =>
    h c (splitOnPred_mem _ text line hline c hc).1
  simp [countWordOccs_space ws hws line hsub none]

theorem pyStrip_space (s : List Char) (h : ∀ c ∈ s, isPySpace c = true) :
    pyStrip s = [] := by
  rw [pyStrip]
  have h1 : s.dropWhile isPySpace = [] := List.dropWhile_eq_nil_iff.mpr h
  simp [h1]

theorem sentenceUnits_space (text : List Char)
    (h : ∀ c ∈ text, isPySpace c = true) : sentenceUnits text = [] := by
  rw [sentenceUnits,
    splitOnPred_eq_single isTerminator text
      (fun c hc => space_not_terminator c (h c hc)),
    List.map_singleton, pyStrip_space text h]
  rfl

theorem count2_eq_zero_fst (a b : Char) :
    ∀ s : List Char, (∀ c ∈ s, (c == a) = false) → count2 a b s = 0
  | [], _ => rfl
  | [_], _ => rfl
  | c :: d :: rest, h => by
    rw [count2]
    rw [h c (List.mem_cons_self c (d :: rest))]
    simp only [Bool.false_and, if_neg (Bool.false_ne_true)]
    exact count2_eq_zero_fst a b (d :: rest)
      (fun x hx => h x (List.mem_cons_of_mem c hx))

theorem count2_eq_zero_snd (a b : Char) :
    ∀ s : List Char, (∀ c ∈ s, (c == b) = false) → count2 a b s = 0
  | [], _ => rfl
  | [_], _ => rfl
  | c :: d :: rest, h => by
    rw [count2]
    rw [h d (List.mem_cons_of_mem c (List.mem_cons_self d rest))]
    simp only [Bool.and_false, if_neg (Bool.false_ne_true)]
    exact count2_eq_zero_snd a b (d :: rest)
      (fun x hx => h x (List.mem_cons_of_mem c hx))

theorem properNounsAux_space (text : List Char)
    (h : ∀ c ∈ text, isPySpace c = true) :
    ∀ prev, properNounsAux prev text = [] := by
  induction text with
  | nil => intro prev; rfl
  | cons c rest ih =>
    intro prev
    simp only [properNounsAux]
    rw [space_not_upper c (h c (List.mem_cons_self c rest))]
    simp [ih (fun x hx => h x (List.mem_cons_of_mem c hx)) (some c)]

theorem pySplit_space (s : List Char) (h : ∀ c ∈ s, isPySpace c = true) :
    pySplit s = [] := by
  rw [pySplit, List.filter_eq_nil_iff]
  intro piece hp
  cases piece with
  | nil => simp
  | cons x xs =>
    have hx := splitOnPred_mem isPySpace s _ hp x (List.mem_cons_self x xs)
    rw [h x hx.1] at hx
    exact absurd hx.2 (by simp)

/-- C6: on every empty or whitespace-only text all four detectors return 0,
and feeding those counts to the score normalizer yields each sub-score at
its category ceiling — grammar 40, the others 20, total 100 — with the
divisor floored at 1. -/
theorem whitespace_text_zero_errors_ceiling_scores (text : List Char)
    (h : ∀ c ∈ text, isPySpace c = true) :
    (check_grammar text).1 = 0 ∧
    check_punctuation text = 0 ∧
    check_capitalization text = 0 ∧
    check_sentence_formation_count text = 0 ∧
    calculate_scores text (check_grammar text).1 (check_punctuation text)
        (check_capitalization text) (check_sentence_formation_count text) =
      ⟨40, 20, 20, 20, 100⟩ := by
  have hwsTheir : ∀ w ∈ groupTheir, ∃ a t, w = a :: t ∧ isPySpace a = false := by
    intro w hw
    fin_cases hw <;> exact ⟨_, _, rfl, by decide⟩
  have hwsYour : ∀ w ∈ groupYour, ∃ a t, w = a :: t ∧ isPySpace a = false := by
    intro w hw
    fin_cases hw <;> exact ⟨_, _, rfl, by decide⟩
  have hwsIts : ∀ w ∈ groupIts, ∃ a t, w = a :: t ∧ isPySpace a = false := by
    intro w hw
    fin_cases hw <;> exact ⟨_, _, rfl, by decide⟩
  have hg : (check_grammar text).1 = 0 := by
    rw [check_grammar]
    rw [standaloneICount_space text h none,
      homophonePairCount_space groupTheir hwsTheir text h,
      homophonePairCount_space groupYour hwsYour text h,
      homophonePairCount_space groupIts hwsIts text h]
  have hnocomma : ∀ c ∈ text, (c == ',') = false :=
    fun c hc => space_not_comma c (h c hc)
  have hp : check_punctuation text = 0 := by
    rw [check_punctuation, missingTerminatorCount, sentenceUnits_space text h,
      count2_eq_zero_fst ',' ',' text hnocomma,
      count2_eq_zero_snd ' ' ',' text hnocomma,
      count2_eq_zero_fst ',' ' ' text hnocomma]
    rfl
  have hc : check_capitalization text = 0 := by
    rw [check_capitalization, sentenceUnits_space text h, commonWordFlags,
      properNouns, properNounsAux_space text h none]
    rfl
  have hsplit : pySplit text = [] := pySplit_space text h
  have hf : check_sentence_formation_count text = 0 := by
    rw [check_sentence_formation_count,
      splitOnPred_eq_single isTerminator text
        (fun c hc => space_not_terminator c (h c hc))]
    simp [hsplit]
  refine ⟨hg, hp, hc, hf, ?_⟩
  rw [hg, hp, hc, hf]
  simp only [calculate_scores, hsplit]
  norm_num

/-- Witness for C6: the single-space text is whitespace-only, its detector
counts are all 0, and scoring them saturates every category ceiling. -/
theorem whitespace_text_zero_errors_ceiling_scores_witness :
    (∀ c ∈ [' '], isPySpace c = true) ∧
    ((check_grammar [' ']).1 = 0 ∧
     check_punctuation [' '] = 0 ∧
     check_capitalization [' '] = 0 ∧
     check_sentence_formation_count [' '] = 0 ∧
     calculate_scores [' '] (check_grammar [' ']).1 (check_punctuation [' '])
         (check_capitalization [' ']) (check_sentence_formation_count [' ']) =
       ⟨40, 20, 20, 20, 100⟩) :=
  ⟨by decide, whitespace_text_zero_errors_ceiling_scores [' '] (by decide)⟩

/-! ## Feedback generator -/

theorem tierSentence_eq_chain (hi mid s : ℚ) (t m l : String) :
    tierSentence hi mid s t m l =
      if hi ≤ s then t else if mid ≤ s then m else l := by
  rw [tierSentence]
  by_cases h1 : hi ≤ s
  · simp [h1]
  · have h2 : s < hi := lt_of_not_le h1
    by_cases h3 : mid ≤ s
    · simp [h1, h2, h3]
    · simp [h1, h3]

/-- C7: the feedback generator realizes exactly the three-tier contract the
specification states — grammar cutoffs 35 and 30, cutoffs 18 and 15 for the
other three categories, the raw error count interpolated only into the
lowest tier, four sentences joined space-separated in category order — for
every ScoreSet and every error-count quadruple. -/
theorem generate_feedback_eq_feedbackSpec (scores : Scores) (g p c f : Nat) :
    generate_feedback scores g p c f = feedbackSpec scores g p c f := by
  rw [generate_feedback, feedbackSpec, tierSentence_eq_chain,
    tierSentence_eq_chain, tierSentence_eq_chain, tierSentence_eq_chain]

/-! ## Grammar detail list and the unreachable mistake entry -/

/-- C9: for every input text the grammar detector returns a pair whose
second component is the empty list, so no per-match detail is ever exposed
to callers. -/
theorem check_grammar_details_empty (text : List Char) :
    (check_grammar text).2 = ([] : List String) := rfl

theorem properNounsAux_two_le_length (text : List Char) :
    ∀ prev, ∀ w ∈ properNounsAux prev text, 2 ≤ w.length := by
  induction text with
  | nil => intro prev w hw; simp [properNounsAux] at hw
  | cons c rest ih =>
    intro prev w hw
    simp only [properNounsAux] at hw
    split at hw
    · rename_i hcond
      rcases List.mem_cons.mp hw with rfl | h2
      · rw [Bool.and_eq_true, Bool.and_eq_true, Bool.and_eq_true] at hcond
        have hrun : (rest.takeWhile isLowerPy).isEmpty = false := by
          have := hcond.1.2
          simp only [Bool.not_eq_true'] at this
          exact this
        cases hr : rest.takeWhile isLowerPy with
        | nil => rw [hr] at hrun; simp at hrun
        | cons x xs => simp only [List.length_cons]; omega
      · exact ih (some c) w h2
    · exact ih (some c) w hw

/-- C10: the entry for the single letter a in `common_mistakes` is
unreachable — every match of the capitalized-word pattern has at least two
characters, so removing that entry never changes the common-word flag count
of the capitalization detector. -/
theorem common_mistakes_a_unreachable (text : List Char) :
    (∀ w ∈ properNouns text, 2 ≤ w.length) ∧
      commonWordFlags common_mistakes text =
        commonWordFlags (common_mistakes.erase ['a']) text := by
  refine ⟨properNounsAux_two_le_length text none, ?_⟩
  rw [commonWordFlags, commonWordFlags]
  congr 1
  apply List.filter_congr
  intro w hw
  have hlen : 2 ≤ w.length := properNounsAux_two_le_length text none w hw
  have hne : w.map toLowerPy ≠ ['a'] := by
    intro heq
    have h1 : (w.map toLowerPy).length = 1 := by rw [heq]; rfl
    rw [List.length_map] at h1
    omega
  have hmem : w.map toLowerPy ∈ common_mistakes.erase ['a'] ↔
      w.map toLowerPy ∈ common_mistakes := List.mem_erase_of_ne hne
  rw [Bool.eq_iff_iff]
  constructor
  · intro hcont
    exact List.elem_iff.mpr (hmem.mpr (List.elem_iff.mp hcont))
  · intro hcont
    exact List.elem_iff.mpr (hmem.mp (List.elem_iff.mp hcont))

end App
